import Mathlib

/-!
Verification of the core subsystems of the depoy API gateway, translated
from the Go sources into a shallow embedding:

* metrics repository (src/metrics/metrics.go): rate flattening, the
  per-backend monitor loop, backend removal, the Listen fan-in loop and
  the scrape body parser;
* switchover controller (src/unnamed/part_001, package route): the
  cycle/stop state machine over condition latching and uint8 weights;
* route weight distribution (src/unnamed/part_002): updateWeights and
  getNextBackend;
* router (src/router/router.go): AddHandler / ServeHTTP.

Conventions: Go `time.Time` becomes `Nat` (the zero value becomes
`Option.none` where the source tests `IsZero`); `float64` becomes `ℚ`;
`uuid.UUID` becomes `Nat`; Go maps become association lists with a
front-insert update so that `List.lookup` sees the latest write; `uint8`
arithmetic is `Nat` arithmetic with an explicit `% 256`.
-/

namespace Depoy

/-- Go map assignment `m[k] = v` for a string-keyed map: the new binding is
placed at the front, so `List.lookup` (first match) returns the latest
value, exactly as a map read would. Maps are observed through `List.lookup`
throughout. -/
def mapSet {α : Type} (m : List (String × α)) (k : String) (v : α) :
    List (String × α) :=
  (k, v) :: m

/-- Go map deletion `delete(m, k)`: every binding of the key is dropped, so
a later `List.lookup` finds nothing. -/
def mapDel {α : Type} (m : List (String × α)) (k : String) :
    List (String × α) :=
  m.filter fun p => p.1 ≠ k

/-! ## Metric keys and status strings used by the sources -/

def rate2xx : String := "2xxRate"
def rate3xx : String := "3xxRate"
def rate4xx : String := "4xxRate"
def rate5xx : String := "5xxRate"
def rate6xx : String := "6xxRate"
def keyResponseTime : String := "ResponseTime"
def keyContentLength : String := "ContentLength"

/-! ## storage.Metric and the window aggregation (C1) -/

/-- Window aggregate `storage.Metric` with exactly the fields read by
src/metrics/metrics.go: integer response counters, the averaged response
time, the content length and the custom scrape metrics. -/
structure Metric where
  totalResponses : Nat
  responseStatus200 : Nat
  responseStatus300 : Nat
  responseStatus400 : Nat
  responseStatus500 : Nat
  responseStatus600 : Nat
  responseTime : ℚ
  contentLength : Nat
  customMetrics : List (String × ℚ)
deriving Repr, DecidableEq

/-- Point written to the metric store: the response status, the upstream
response time and the content length of one request. -/
structure MetricPoint where
  status : Nat
  responseTime : ℚ
  contentLength : Nat
deriving Repr, DecidableEq

/-- Status class membership of the five counters: `2xx` counts statuses in
[200,300) and so on, and anything at or above 600 (the synthetic
no-response code) counts as `6xx`. -/
def countClass (lo hi : Nat) (points : List MetricPoint) : Nat :=
  (points.filter (fun p => lo ≤ p.status ∧ p.status < hi)).length

/-- Modelled from the spec: the storage package (storage.ReadBackend) is not
under src; §4.2 defines the window aggregate as `TotalResponses` = count of
points, each status counter = count of its class with status ≥ 600 counted
as 6xx, `ResponseTime` and `ContentLength` the arithmetic means (zero when
the window is empty). Custom metrics are not carried here because the C1
scenario writes none. -/
def readBackendAgg (points : List MetricPoint) : Metric :=
  let n := points.length
  { totalResponses := n
    responseStatus200 := countClass 200 300 points
    responseStatus300 := countClass 300 400 points
    responseStatus400 := countClass 400 500 points
    responseStatus500 := countClass 500 600 points
    responseStatus600 := (points.filter (fun p => 600 ≤ p.status)).length
    responseTime := if n = 0 then 0 else (points.map (fun p => p.responseTime)).sum / n
    contentLength := if n = 0 then 0 else (points.map (fun p => p.contentLength)).sum / n
    customMetrics := [] }

/-- Rate flattening of src/metrics/metrics.go `Repository.ReadRatesOfBackend`
after a successful storage read: `TotalResponses` is substituted by 1 when
zero, and each rate key is `float64(statusCount / TotalResponses)` — the
division happens on the integer counters before the float conversion, so it
truncates (Go integer division; counters are nonnegative, hence `Nat`
division here). Custom metrics overwrite rate keys on collision, which the
front-first association list models. -/
def readRatesOfBackend (current : Metric) : List (String × ℚ) :=
  let total := if current.totalResponses = 0 then 1 else current.totalResponses
  current.customMetrics ++
    [ (rate2xx, ((current.responseStatus200 / total : Nat) : ℚ))
    , (rate3xx, ((current.responseStatus300 / total : Nat) : ℚ))
    , (rate4xx, ((current.responseStatus400 / total : Nat) : ℚ))
    , (rate5xx, ((current.responseStatus500 / total : Nat) : ℚ))
    , (rate6xx, ((current.responseStatus600 / total : Nat) : ℚ))
    , (keyResponseTime, current.responseTime)
    , (keyContentLength, (current.contentLength : ℚ)) ]

/-- Scenario of C1: three points with statuses 200, 201, 503. -/
def c1Points : List MetricPoint :=
  [⟨200, 1, 10⟩, ⟨201, 1, 10⟩, ⟨503, 1, 10⟩]

/-! ## Scrape body parsing (C7) -/

def tokHash : String := "#"
def emptyStr : String := ""
def chSpace : Char := ' '
def chNewline : Char := Char.ofNat 10

/-- Split of a character list on a separator character, with the semantics
of Go `strings.Split` for a one-character separator: the result always has
at least one (possibly empty) part. -/
def splitOnChar (c : Char) : List Char → List (List Char)
  | [] => [[]]
  | x :: xs =>
    let r := splitOnChar c xs
    if x = c then [] :: r
    else
      match r with
      | [] => [[x]]
      | t :: ts => (x :: t) :: ts

/-- String split on a separator character (Go `strings.Split` with a
one-character separator; also how bufio.Scanner cuts the body into lines —
the scanner omits a final empty line, which is harmless here because an
empty line matches no metric name). -/
def splitChar (c : Char) (s : String) : List String :=
  (splitOnChar c s.data).map String.mk

/-- First token of a line after splitting on a single space, as
`strings.Split(text, " ")[0]` (the Go split always yields at least one
element; the default is unreachable). -/
def firstTok (line : String) : String :=
  (splitChar chSpace line).headD emptyStr

/-- Line scan of src/metrics/metrics.go `getRowFromBody` over the already
split lines: each line is token-split on a single space, lines whose first
token is `#` are skipped, and the first line whose first token equals the
pattern has its second token parsed. The Go function returns
`(float64, error)`, modelled as `ℚ × Bool` (value, errored); the outer
`none` models the index-out-of-range panic when a matching line has no
second token. The float parser (`parseFloat`, supporting decimal, grouped
and scientific notation) is passed as a parameter; it is never consulted
for a pattern that matches no line. -/
def getRowLines (parse : String → Option ℚ) (pattern : String) :
    List String → Option (ℚ × Bool)
  | [] => some (-1, true)
  | line :: rest =>
    if firstTok line = tokHash then getRowLines parse pattern rest
    else if firstTok line = pattern then
      match (splitChar chSpace line).get? 1 with
      | none => none
      | some tok =>
        match parse tok with
        | none => some (-1, true)
        | some v => some (v, false)
    else getRowLines parse pattern rest

/-- Body scan of `getRowFromBody`: the body is read line by line
(separator `\n`, as bufio.Scanner does). -/
def getRowFromBody (parse : String → Option ℚ) (body pattern : String) :
    Option (ℚ × Bool) :=
  getRowLines parse pattern (splitChar chNewline body)

/-- Loop body of the metric extraction in `Repository.scrapeJob`
(src/metrics/metrics.go lines 444-451): the value returned by
`getRowFromBody` is written into the delivered map unconditionally — a
returned error is only logged. `none` propagates the panic case. -/
def scrapeStep (parse : String → Option ℚ) (body : String)
    (acc : Option (List (String × ℚ))) (name : String) :
    Option (List (String × ℚ)) :=
  match acc with
  | none => none
  | some m =>
    match getRowFromBody parse body name with
    | none => none
    | some (v, _) => some (mapSet m name v)

/-- Metric extraction of `Repository.scrapeJob`: every requested name is
processed in order into the delivered `ScrapeMetrics` map. -/
def scrapeJobMetrics (parse : String → Option ℚ) (names : List String)
    (body : String) : Option (List (String × ℚ)) :=
  names.foldl (scrapeStep parse body) (some [])

/-- Whether `name` occurs as the first token of some non-comment line of
the body (the premise of C7, negated). -/
def occursAsMetric (body name : String) : Bool :=
  (splitChar chNewline body).any fun line =>
    firstTok line ≠ tokHash ∧ firstTok line = name

/-- Parse function that fails on every token; usable in closed scenarios
where the parser is never consulted. -/
def parseNone : String → Option ℚ := fun _ => none

/-- Scrape body for the C7 counterexample: a comment line and one sample
line for `foo`; the requested name `bar` occurs nowhere. -/
def bodyC7 : String := "# HELP foo counter\nfoo 1"

def nameBar : String := "bar"

/-! ## Alerts and the per-backend monitor loop (C3) -/

def alertPending : String := "Pending"
def alertAlarming : String := "Alarming"
def alertResolved : String := "Resolved"

/-- Alert record of src/metrics/metrics.go; the Go zero `time.Time` for
`EndTime` and `SendTime` (tested with `IsZero`) becomes `Option.none`. -/
structure Alert where
  type : String
  backendID : Nat
  metric : String
  threshhold : ℚ
  value : ℚ
  startTime : Nat
  endTime : Option Nat
  sendTime : Option Nat
deriving Repr, DecidableEq

/-- Comparison operator of a threshold condition. -/
inductive Op
  | lt
  | gt
  | le
  | ge
  | eq
  | ne
deriving Repr, DecidableEq

/-- Threshold condition as consumed by the monitor loop. -/
structure MonCond where
  metric : String
  op : Op
  threshold : ℚ
  activeFor : Nat
deriving Repr, DecidableEq

/-- Modelled from the spec: the conditional package (Condition.Compile,
IsTrue, GetActiveFor) is not under src. Per §4.1 the compiled predicate
compares the metric value against the threshold with the condition's
operator, and a missing metric evaluates to false, not an error (so the
error branch of the monitor loop is unreachable for a compiled condition
and is not modelled). -/
def condIsTrue (c : MonCond) (m : List (String × ℚ)) : Bool :=
  match m.lookup c.metric with
  | none => false
  | some v =>
    match c.op with
    | .lt => v < c.threshold
    | .gt => v > c.threshold
    | .le => v ≤ c.threshold
    | .ge => v ≥ c.threshold
    | .eq => v = c.threshold
    | .ne => v ≠ c.threshold

/-- Monitor state of one backend: its active alerts keyed by metric, and
the alerts sent on the alert channel so far, in order. -/
structure MonState where
  activeAlerts : List (String × Alert)
  sent : List Alert
deriving Repr, DecidableEq

/-- One condition evaluation of `Repository.Monitor`
(src/metrics/metrics.go lines 252-326): if an alert exists and the
threshold is still reached, its value is updated and it is promoted to
Alarming (and sent) when `now` is strictly after `startTime + activeFor`
and nothing was sent yet; if the threshold is no longer reached, `endTime`
is latched on first falsity and the alert is promoted to Resolved (sent and
deleted) when `now` is strictly after `endTime + activeFor`; if no alert
exists and the threshold is reached, a Pending alert starting now is stored
and sent. Neither `startTime` nor a latched `endTime` is ever reset. -/
def monitorCond (bid now : Nat) (rates : List (String × ℚ))
    (st : MonState) (c : MonCond) : MonState :=
  let isReached := condIsTrue c rates
  let currentValue := (rates.lookup c.metric).getD 0
  match st.activeAlerts.lookup c.metric with
  | some alert =>
    if isReached then
      let alert1 := { alert with value := currentValue }
      if alert1.startTime + c.activeFor < now ∧ alert1.sendTime = none then
        let alert2 := { alert1 with type := alertAlarming, sendTime := some now }
        { activeAlerts := mapSet st.activeAlerts c.metric alert2,
          sent := st.sent ++ [alert2] }
      else
        { activeAlerts := mapSet st.activeAlerts c.metric alert1,
          sent := st.sent }
    else
      let e := match alert.endTime with
        | none => now
        | some t => t
      let alert1 := { alert with endTime := some e }
      if e + c.activeFor < now then
        let alert2 := { alert1 with type := alertResolved, value := currentValue }
        { activeAlerts := mapDel st.activeAlerts c.metric,
          sent := st.sent ++ [alert2] }
      else
        { activeAlerts := mapSet st.activeAlerts c.metric alert1,
          sent := st.sent }
  | none =>
    if isReached then
      let alert : Alert :=
        { type := alertPending, backendID := bid, metric := c.metric,
          threshhold := c.threshold, value := currentValue,
          startTime := now, endTime := none, sendTime := none }
      { activeAlerts := mapSet st.activeAlerts c.metric alert,
        sent := st.sent ++ [alert] }
    else st

/-- One pass of the monitor loop over all conditions of the backend with
the rates collected at `now`. -/
def monitorTick (bid now : Nat) (rates : List (String × ℚ))
    (conds : List MonCond) (st : MonState) : MonState :=
  conds.foldl (monitorCond bid now rates) st

/-- Monitor loop over a sequence of collection instants, each carrying the
flattened rates read at that instant. -/
def runMonitor (bid : Nat) (conds : List MonCond)
    (ticks : List (Nat × List (String × ℚ))) (st : MonState) : MonState :=
  ticks.foldl (fun s t => monitorTick bid t.1 t.2 conds s) st

/-- Condition of the C3 scenario: metric x above 0, activation 10. -/
def mX : String := "x"

def condC3 : MonCond := { metric := mX, op := .gt, threshold := 0, activeFor := 10 }

/-- Rates under which condition x > 0 is true, respectively false. -/
def ratesT : List (String × ℚ) := [(mX, 1)]

def ratesF : List (String × ℚ) := [(mX, 0)]

/-- Evaluation trace of the C3 counterexample: true at 0, false at 1, true
at 11, false at 12 — with activation 10 nothing is continuously true or
false for more than 10. -/
def ticksC3 : List (Nat × List (String × ℚ)) :=
  [(0, ratesT), (1, ratesF), (11, ratesT), (12, ratesF)]

/-- Alarming alert used by the C3 witness: created at 0, first false at 1,
promoted at 11. -/
def alertC3 : Alert :=
  { type := alertAlarming, backendID := 7, metric := mX, threshhold := 0,
    value := 1, startTime := 0, endTime := some 1, sendTime := some 11 }

/-! ## Switchover controller (C2, C4, C5)

The embedding follows src/unnamed/part_001 (package route), whose
`NewSwitchover` signature is the one called by src/unnamed/part_002
`Route.StartSwitchOver`; src/depoy/route/switchover.go is an older copy of
the same controller with a different failure rule and is superseded. -/

def stRegistered : String := "Registered"
def stRunning : String := "Running"
def stStopped : String := "Stopped"
def stFailed : String := "Failed"
def stSuccess : String := "Success"

/-- Go uint8 addition: wraps modulo 256. -/
def add8 (a b : Nat) : Nat := (a + b) % 256

/-- Go uint8 subtraction: wraps modulo 256 (for a, b < 256 this is
`(a + 256 - b) % 256`). -/
def sub8 (a b : Nat) : Nat := (a % 256 + 256 - b % 256) % 256

/-- Modelled from the spec: Backend.UpdateWeight (backend.go is not under
src) stores the new weight in the backend's weight field. §4.5 specifies no
clamping for weight setters and the in-src Route.UpdateBackendWeight
likewise assigns without validation; the saturation the spec attributes to
the switchover update cannot happen in UpdateWeight anyway, because the
uint8 argument is fully computed (with wrap-around) at the call sites in
part_001 before the call. -/
def updateWeight (_old newW : Nat) : Nat := newW

/-- Condition state mutated by the switchover loop: activation duration,
trigger time (Go zero time = none) and latched status. -/
structure SwCond where
  activeFor : Nat
  triggerTime : Option Nat
  status : Bool
deriving Repr, DecidableEq

/-- Switchover state of src/unnamed/part_001. The two backends are carried
as their weight fields (uint8 values) plus the to-backend's active flag;
`stopRequested` models a send on killChan, upon which the Start loop
returns. -/
structure Switchover where
  fromW : Nat
  toW : Nat
  toActive : Bool
  status : String
  weightChange : Nat
  allowedFailures : Nat
  failureCounter : Nat
  rollback : Bool
  fromRollbackWeight : Nat
  toRollbackWeight : Nat
  conds : List SwCond
  stopRequested : Bool
deriving Repr, DecidableEq

/-- NewSwitchover (part_001 lines 35-68): rejects `from.Weigth < to.Weigth`
(the `from.ID == to.ID` identity check is not carried, backend identities
being irrelevant to the claims); Compile() on the conditions initializes
them with zero trigger time and false status; the status starts Registered
and the failure counter at zero. -/
def newSwitchover (fromW toW : Nat) (toActive : Bool)
    (activeFors : List Nat) (weightChange allowedFailures : Nat)
    (rollback : Bool) : Option Switchover :=
  if fromW % 256 < toW % 256 then none
  else some
    { fromW := fromW % 256, toW := toW % 256, toActive := toActive,
      status := stRegistered, weightChange := weightChange % 256,
      allowedFailures := allowedFailures, failureCounter := 0,
      rollback := rollback, fromRollbackWeight := 0, toRollbackWeight := 0,
      conds := activeFors.map (fun d => ⟨d, none, false⟩),
      stopRequested := false }

/-- Stop (part_001 lines 71-82): a Running switchover becomes Stopped; a
Failed switchover with rollback restores both weights; then killChan is
signalled (after which the Start loop returns). -/
def swStop (s : Switchover) : Switchover :=
  let s1 := if s.status = stRunning then { s with status := stStopped } else s
  let s2 :=
    if s1.rollback ∧ s1.status = stFailed then
      { s1 with fromW := updateWeight s1.fromW s1.fromRollbackWeight,
                toW := updateWeight s1.toW s1.toRollbackWeight }
    else s1
  { s2 with stopRequested := true }

/-- Start preamble (part_001 lines 85-88): the rollback weights are
snapshotted and the status becomes Running. -/
def swStart (s : Switchover) : Switchover :=
  { s with fromRollbackWeight := s.fromW, toRollbackWeight := s.toW,
           status := stRunning }

/-- First condition loop of Start (part_001 lines 105-126): on a true
evaluation with the to-backend active, the trigger time is set when zero
and the status is latched once `now` is strictly after
`triggerTime + activeFor`; otherwise trigger time and status are
cleared. -/
def updateCond (now : Nat) (isTrue toActive : Bool) (c : SwCond) : SwCond :=
  if isTrue ∧ toActive then
    match c.triggerTime with
    | none => { c with triggerTime := some now }
    | some t => if t + c.activeFor < now then { c with status := true } else c
  else { c with triggerTime := none, status := false }

/-- Failure-scan predicate of Start (part_001 line 132): a condition that is
not latched and whose trigger time is zero marks the cycle as failed. -/
def condFailed (c : SwCond) : Bool := !c.status && c.triggerTime.isNone

/-- One timer cycle of Start (part_001 lines 96-167) after a successful
metrics read, `evals i` being the IsTrue result of the i-th condition on
this cycle's rates: every condition state is updated; if some condition is
unlatched with a zero trigger time, the failure counter is incremented and,
when `allowedFailures > 0` and the counter exceeds it, the switchover fails
and stops (skipping the weight update); otherwise both weights are updated
through uint8 arithmetic (no saturation), every condition is reset and,
when `from.Weigth <= 0` or `to.Weigth >= 100`, the switchover succeeds and
stops. -/
def swCycle (s : Switchover) (now : Nat) (evals : Nat → Bool) : Switchover :=
  let conds2 := s.conds.mapIdx fun i c => updateCond now (evals i) s.toActive c
  if (conds2.find? condFailed).isSome then
    let s2 : Switchover :=
      { s with conds := conds2, failureCounter := s.failureCounter + 1 }
    if 0 < s2.allowedFailures ∧ s2.allowedFailures < s2.failureCounter then
      swStop { s2 with status := stFailed }
    else s2
  else
    let s3 : Switchover :=
      { s with
        conds := conds2.map fun c => { c with triggerTime := none, status := false },
        fromW := updateWeight s.fromW (sub8 s.fromW s.weightChange),
        toW := updateWeight s.toW (add8 s.toW s.weightChange) }
    if s3.fromW = 0 ∨ 100 ≤ s3.toW then swStop { s3 with status := stSuccess }
    else s3

/-- Event consumed by the running Start loop: a timer cycle carrying the
IsTrue evaluations of that cycle, a cycle whose metrics read failed (the
`continue` branch), or an external Stop. -/
inductive SwEvent
  | cycle (now : Nat) (evals : Nat → Bool)
  | readError
  | stop

/-- Step of the Start loop. Once killChan has been signalled the loop has
returned, so later events are inert (a second Stop would block on the full
buffered channel and changes no state either). -/
def swStep (s : Switchover) : SwEvent → Switchover
  | .cycle now evals => if s.stopRequested then s else swCycle s now evals
  | .readError => s
  | .stop => if s.stopRequested then s else swStop s

/-- Run of the Start loop over a sequence of events. -/
def swRun (s : Switchover) (events : List SwEvent) : Switchover :=
  events.foldl swStep s

/-- Invariant of every state reachable from a started switchover with
`allowedFailures = aF`. -/
def SwInv (aF : Nat) (s : Switchover) : Prop :=
  s.allowedFailures = aF ∧
  (¬s.stopRequested → s.status = stRunning) ∧
  (s.stopRequested →
    s.status = stStopped ∨ s.status = stFailed ∨ s.status = stSuccess) ∧
  (s.status = stFailed → 0 < aF ∧ aF < s.failureCounter) ∧
  (s.status = stSuccess → s.fromW = 0 ∨ 100 ≤ s.toW) ∧
  (0 < aF → s.failureCounter ≤ aF + 1) ∧
  (0 < aF → aF < s.failureCounter → s.status = stFailed)

/-- Registered switchover used by the C4 witness: weights (100, 0),
weightChange 50, allowedFailures 1, no conditions (the value of
`newSwitchover 100 0 true [] 50 1 false`). -/
def swC4w : Switchover :=
  { fromW := 100, toW := 0, toActive := true, status := stRegistered,
    weightChange := 50, allowedFailures := 1, failureCounter := 0,
    rollback := false, fromRollbackWeight := 0, toRollbackWeight := 0,
    conds := [], stopRequested := false }

/-- Registered switchover used by the C5 witness: weights (100, 0),
weightChange 10, allowedFailures 1, one condition with activation 0 (the
value of `newSwitchover 100 0 true [0] 10 1 false`). -/
def swC5w : Switchover :=
  { fromW := 100, toW := 0, toActive := true, status := stRegistered,
    weightChange := 10, allowedFailures := 1, failureCounter := 0,
    rollback := false, fromRollbackWeight := 0, toRollbackWeight := 0,
    conds := [⟨0, none, false⟩], stopRequested := false }

/-- Two cycles whose condition evaluation is false (C5 witness). -/
def eventsC5 : List SwEvent :=
  [SwEvent.cycle 1 (fun _ => false), SwEvent.cycle 2 (fun _ => false)]

/-! ## Route weight distribution (C6) -/

/-- Route backend fields consumed by updateWeights: identifier, weight
(uint8; the field name keeps the source's spelling `Weigth`) and active
flag. -/
structure RB where
  id : Nat
  weigth : Nat
  active : Bool
deriving Repr, DecidableEq

/-- Active backends of a route, in map iteration order. -/
def activesOf (bs : List RB) : List RB := bs.filter fun b => b.active

/-- Modelled from the spec: GGT (the helper computing the greatest common
divisor of the uint8 weight slice) is not under src; §4.5 describes it as
the gcd of the collected weights, with g = 0 (the gcd of an all-zero or
empty slice) meaning no active backend. -/
def ggt (l : List Nat) : Nat := l.foldr Nat.gcd 0

/-- Weights of the active backends, in order. -/
def activeWeights (bs : List RB) : List Nat :=
  (activesOf bs).map fun b => b.weigth

/-- Distribution fill written by updateWeights when the reduced weights
have gcd `g`: `weight/g` consecutive copies of each active backend. -/
def distrOf (bs : List RB) (g : Nat) : List Nat :=
  ((activesOf bs).map fun b => List.replicate (b.weigth / g) b.id).flatten

/-- updateWeights of src/unnamed/part_002 (lines 115-154), the map
iteration order given by the list order: `listWeights` is allocated with
length `len(r.Backends)` and its first entries receive the weights of the
active backends (the rest stay 0); when `GGT(listWeights)` is positive the
distribution slice is allocated with length `sum`, the uint8 accumulation
`Σ weight/g mod 256`, and filled with `weight/g` consecutive copies of each
active backend — `none` models the index-out-of-range panic when the uint8
sum overflows and the fill exceeds the allocation; with gcd 0 the
distribution is empty. -/
def updateWeights (bs : List RB) : Option (List Nat) :=
  let listWeights := activeWeights bs ++
    List.replicate (bs.length - (activesOf bs).length) 0
  let g := ggt listWeights
  if 0 < g then
    let sum8 := ((listWeights.map fun w => w / g).sum) % 256
    let fill := distrOf bs g
    if fill.length ≤ sum8 then some fill else none
  else some []

/-- getNextBackend (part_002 lines 156-164): an empty distribution yields
the "No backend is active" error; otherwise the uniformly drawn index
(given here as input) selects from the distribution. -/
def getNextBackend (distr : List Nat) (draw : Nat) : Option Nat :=
  if distr.length = 0 then none
  else distr.get? (draw % distr.length)

/-- Backends of the C6 witness: two active backends with weights 40 and 20
and an inactive one with weight 50. -/
def bsC6 : List RB := [⟨1, 40, true⟩, ⟨2, 20, true⟩, ⟨3, 50, false⟩]

/-! ## Metrics repository state: RemoveBackend (C8) and Listen (C10) -/

/-- Monitored backend entry of the repository map with the fields C8/C10
observe: the owning route and the scrape buffer (a Go nil map is none; the
entry is created with an empty non-nil buffer). -/
structure MonitoredBackend where
  route : String
  scrapeMetricPuffer : Option (List (String × ℚ))
deriving Repr, DecidableEq

/-- One call to Storage.Write, in the argument order of the Storage
interface (route, backendID, customMetrics, upstreamResponseTime,
contentLength, responseStatus); a nil custom-metrics map is none. -/
structure StoreWrite where
  route : String
  backendID : Nat
  customMetrics : Option (List (String × ℚ))
  upstreamResponseTime : Int
  contentLength : Int
  responseStatus : Int
deriving Repr, DecidableEq

/-- Repository state observed by RemoveBackend and Listen: the backend map,
the monitor stop channels signalled so far (in order) and the store writes
issued so far (in order). -/
structure RepoState where
  backends : List (Nat × MonitoredBackend)
  stopSignals : List Nat
  writes : List StoreWrite
deriving Repr, DecidableEq

def routeC : String := "r1"

/-- Repository of the C8 witness: exactly one backend, id 5. -/
def repoC8 : RepoState :=
  { backends := [(5, ⟨routeC, some []⟩)], stopSignals := [], writes := [] }

/-- Repository of the C10 witness: no backends registered. -/
def repoC10 : RepoState :=
  { backends := [], stopSignals := [], writes := [] }

/-- RemoveBackend of src/metrics/metrics.go (lines 169-187): the key scan
finds the id iff it is present; a present id has its monitor stop channel
signalled and its entry deleted with no error; an absent id yields an error
and no change. The Bool is true when an error is returned. -/
def removeBackend (r : RepoState) (backendID : Nat) : RepoState × Bool :=
  if (r.backends.lookup backendID).isSome then
    ({ r with backends := r.backends.filter fun p => p.1 ≠ backendID,
              stopSignals := r.stopSignals ++ [backendID] }, false)
  else (r, true)

/-- One event consumed by the Listen loop: a request-metrics record (the
fields forwarded to the store) or a scrape-metrics record. -/
inductive ListenEvent
  | metrics (route : String) (backendID : Nat) (urt cl status : Int)
  | scrape (backendID : Nat) (mp : List (String × ℚ))

/-- One iteration of Listen (src/metrics/metrics.go lines 337-406). On a
request-metrics event the measurement is forwarded to the Prometheus
adapter (an external library, not modelled) and then the backend is looked
up: an unregistered id is dropped with a `continue` and no store write;
otherwise one point is written carrying the backend's scrape buffer (a nil
buffer writes nil custom metrics). On a scrape event the code assigns
`m.Backends[id].ScrapeMetricPuffer = ...` with no existence check, so an
unregistered id dereferences the nil map entry and panics — modelled as
`none`. -/
def listenStep (r : RepoState) : ListenEvent → Option RepoState
  | .metrics route backendID urt cl status =>
    match r.backends.lookup backendID with
    | none => some r
    | some mb =>
      some { r with writes := r.writes ++
        [⟨route, backendID, mb.scrapeMetricPuffer, urt, cl, status⟩] }
  | .scrape backendID mp =>
    match r.backends.lookup backendID with
    | none => none
    | some mb =>
      some { r with backends :=
        (backendID, { mb with scrapeMetricPuffer := some mp }) :: r.backends }

/-! ## Router (C9) -/

def chSlash : Char := '/'
def mGET : String := "GET"
def mPOST : String := "POST"
def pfxA : String := "/a/"
def pathAx : String := "/a/x"

/-- Dispatch outcome of ServeHTTP: a selected handler (handlers are
identified by number) or the 404 not-found handler. -/
inductive DispatchResult
  | handled (h : Nat)
  | notFound
deriving Repr, DecidableEq

/-- Radix tree of one method, observed as its prefix-to-handler map. -/
abbrev RTree : Type := List (String × Nat)

/-- Router trees: the Go map from method to radix tree (an absent method
has no tree). -/
abbrev RTrees : Type := List (String × RTree)

/-- Uppercase of a string (Go strings.ToUpper on ASCII method names),
character by character. -/
def toUpperStr (s : String) : String :=
  String.mk (s.data.map Char.toUpper)

/-- Validation of CheckIfHandleExists (src/router/router.go lines 38-48):
the method must be non-empty and the prefix non-empty and starting with
a slash. -/
def validMP (method pfx : String) : Bool :=
  !(method == emptyStr) &&
    (match pfx.data with
     | [] => false
     | c :: _ => c == chSlash)

/-- CheckIfHandleExists (router.go lines 35-64): invalid input errors
without touching the trees; an absent method gets a fresh empty tree (and
no handle can exist in it); an existing (method, prefix) pair errors.
Result: (trees after the call, handle exists, error returned). -/
def checkIfHandleExists (trees : RTrees) (method pfx : String) :
    RTrees × Bool × Bool :=
  if validMP method pfx = false then (trees, false, true)
  else
    match trees.lookup method with
    | none => ((method, ([] : RTree)) :: trees, false, false)
    | some t =>
      if (t.lookup pfx).isSome then (trees, true, true)
      else (trees, false, false)

/-- AddHandler (router.go lines 66-79): the method is uppercased, the
existence check is consulted (its error is returned unchanged, leaving the
trees as the check left them — error paths do not touch them), and the
handler is inserted into the method's tree; an Insert that replaced an
entry returns the "Updated an entry" error. The lookup-none inner case is
unreachable because the check creates the tree. The Bool is true when an
error is returned. -/
def addHandler (trees : RTrees) (method pfx : String) (handler : Nat) :
    RTrees × Bool :=
  let M := toUpperStr method
  let res := checkIfHandleExists trees M pfx
  if res.2.2 then (res.1, true)
  else
    match res.1.lookup M with
    | none => (res.1, true)
    | some t =>
      if (t.lookup pfx).isSome then ((M, (pfx, handler) :: t) :: res.1, true)
      else ((M, (pfx, handler) :: t) :: res.1, false)

/-- LongestPrefix of the go-radix tree: the entry with the longest key that
is a prefix of the path (earlier entries win ties, matching the map's
latest-binding-first representation). -/
def longestPfx (t : RTree) (path : String) : Option (String × Nat) :=
  t.foldl
    (fun acc e =>
      if e.1.data.isPrefixOf path.data then
        match acc with
        | none => some e
        | some b => if b.1.length < e.1.length then some e else acc
      else acc)
    none

/-- ServeHTTP (router.go lines 98-114): if the request method has a tree
and the path has a longest-prefix match there, that handler runs; otherwise
the not-found handler answers 404. -/
def serveHTTP (trees : RTrees) (method path : String) : DispatchResult :=
  match trees.lookup method with
  | none => .notFound
  | some t =>
    match longestPfx t path with
    | none => .notFound
    | some e => .handled e.2

/-- C1: the spec mandates floating-point division for the rate keys, giving
`2xxRate ≈ 0.667` on a window of statuses 200, 201, 503 — but the source
divides the integer counters before converting to float, so the window with
`TotalResponses = 3` and two 2xx responses yields `2xxRate = float64(2/3) =
0`, an integer-truncated zero. The aggregate itself matches the spec
(`TotalResponses = 3`, `2xx = 2`, `5xx = 1`); the division is the slip the
spec's design notes call a latent bucketing bug. -/
theorem c1_rates_integer_division :
    (readBackendAgg c1Points).totalResponses = 3 ∧
    (readBackendAgg c1Points).responseStatus200 = 2 ∧
    (readBackendAgg c1Points).responseStatus500 = 1 ∧
    (readRatesOfBackend (readBackendAgg c1Points)).lookup rate2xx = some 0 ∧
    ((2 : ℚ) / 3 ≠ 0) := by
  refine ⟨rfl, rfl, rfl, rfl, by norm_num⟩

/-! ### Map helper lemmas -/

theorem lookup_mapSet_self {α : Type} (m : List (String × α)) (k : String)
    (v : α) : (mapSet m k v).lookup k = some v := by
  simp [mapSet, List.lookup]

theorem lookup_mapSet_ne {α : Type} (m : List (String × α)) (k k2 : String)
    (v : α) (h : k2 ≠ k) : (mapSet m k v).lookup k2 = m.lookup k2 := by
  have hb : (k2 == k) = false := by simpa using h
  simp [mapSet, List.lookup, hb]

theorem lookup_mapDel {α : Type} (m : List (String × α)) (k : String) :
    (mapDel m k).lookup k = none := by
  simp only [mapDel]
  induction m with
  | nil => rfl
  | cons p rest ih =>
    by_cases hpk : p.1 = k
    · simpa [List.filter_cons, hpk] using ih
    · have hb : (k == p.1) = false := by
        simp only [beq_eq_false_iff_ne, ne_eq]
        exact fun hh => hpk hh.symm
      simpa [List.filter_cons, hpk, List.lookup, hb] using ih

/-! ### C7 -/

theorem getRowLines_missing (parse : String → Option ℚ) (pattern : String)
    (lines : List String)
    (h : ∀ line ∈ lines, firstTok line = tokHash ∨ firstTok line ≠ pattern) :
    getRowLines parse pattern lines = some (-1, true) := by
  induction lines with
  | nil => rfl
  | cons line rest ih =>
    have hrest : ∀ l ∈ rest, firstTok l = tokHash ∨ firstTok l ≠ pattern :=
      fun l hl => h l (List.mem_cons_of_mem _ hl)
    rw [getRowLines]
    rcases h line (List.mem_cons_self _ _) with hc | hnp
    · simp [hc, ih hrest]
    · by_cases hc : firstTok line = tokHash
      · simp [hc, ih hrest]
      · simp [hc, hnp, ih hrest]

theorem getRowFromBody_missing (parse : String → Option ℚ)
    (body name : String) (h : occursAsMetric body name = false) :
    getRowFromBody parse body name = some (-1, true) := by
  apply getRowLines_missing
  intro line hline
  simp only [occursAsMetric, List.any_eq_false] at h
  have := h line hline
  simp only [Bool.and_eq_true, decide_eq_true_eq, not_and] at this
  by_cases hc : firstTok line = tokHash
  · exact Or.inl hc
  · exact Or.inr (this hc)

theorem scrapeFold_none (parse : String → Option ℚ) (body : String)
    (names : List String) :
    names.foldl (scrapeStep parse body) none = none := by
  induction names with
  | nil => rfl
  | cons n rest ih => simpa [scrapeStep] using ih

theorem scrapeFold_sentinel (parse : String → Option ℚ) (body name : String)
    (hocc : occursAsMetric body name = false) :
    ∀ (names : List String) (m0 mfin : List (String × ℚ)),
      (name ∈ names ∨ m0.lookup name = some (-1)) →
      names.foldl (scrapeStep parse body) (some m0) = some mfin →
      mfin.lookup name = some (-1) := by
  intro names
  induction names with
  | nil =>
    intro m0 mfin hmem hfold
    rcases hmem with hmem | hv
    · cases hmem
    · cases hfold
      exact hv
  | cons n rest ih =>
    intro m0 mfin hmem hfold
    rw [List.foldl_cons] at hfold
    by_cases hn : n = name
    · subst hn
      rw [show scrapeStep parse body (some m0) n = some (mapSet m0 n (-1)) by
            simp [scrapeStep, getRowFromBody_missing parse body n hocc]] at hfold
      exact ih _ _ (Or.inr (lookup_mapSet_self m0 n (-1))) hfold
    · rcases hs : getRowFromBody parse body n with _ | ⟨v, e⟩
      · rw [show scrapeStep parse body (some m0) n = none by
              simp [scrapeStep, hs]] at hfold
        rw [scrapeFold_none] at hfold
        cases hfold
      · rw [show scrapeStep parse body (some m0) n = some (mapSet m0 n v) by
              simp [scrapeStep, hs]] at hfold
        have hmem2 : name ∈ rest ∨ (mapSet m0 n v).lookup name = some (-1) := by
          rcases hmem with hmem | hv2
          · rcases List.mem_cons.mp hmem with h1 | h1
            · exact absurd h1.symm hn
            · exact Or.inl h1
          · exact Or.inr (by rw [lookup_mapSet_ne m0 n name v (fun h => hn h.symm)]; exact hv2)
        exact ih _ _ hmem2 hfold

/-- C7 (amended): for every scrape body and every requested metric name that
does not occur as the first token of any non-comment line, the delivered
`ScrapeMetrics` map records the sentinel value `-1` for that name — a sample
IS recorded for the missing name (the lookup error is only logged and the
scrape still delivers), contrary to the claim that no sample appears. -/
theorem c7_missing_metric_sentinel (parse : String → Option ℚ)
    (names : List String) (body name : String) (m : List (String × ℚ))
    (hmem : name ∈ names) (hocc : occursAsMetric body name = false)
    (hres : scrapeJobMetrics parse names body = some m) :
    m.lookup name = some (-1) :=
  scrapeFold_sentinel parse body name hocc names [] m (Or.inl hmem) hres

/-- C7 witness: the amended theorem applied at the concrete body of the
counterexample scenario. -/
theorem c7_missing_metric_sentinel_witness :
    ([(nameBar, (-1 : ℚ))] : List (String × ℚ)).lookup nameBar = some (-1) :=
  c7_missing_metric_sentinel parseNone [nameBar] bodyC7 nameBar
    [(nameBar, (-1 : ℚ))] (by decide) (by decide) (by decide)

/-! ### Switchover helper lemmas -/

theorem swStop_running (s : Switchover) (h : s.status = stRunning) :
    swStop s = { s with status := stStopped, stopRequested := true } := by
  have h1 : ¬(stStopped = stFailed) := by decide
  simp [swStop, h, h1]

theorem swStop_failed (s : Switchover) (h : s.status = stFailed) :
    swStop s =
      if s.rollback then
        { s with fromW := s.fromRollbackWeight, toW := s.toRollbackWeight,
                 stopRequested := true }
      else { s with stopRequested := true } := by
  have h1 : ¬(stFailed = stRunning) := by decide
  by_cases hrb : s.rollback
  · simp [swStop, h, h1, hrb, updateWeight]
  · simp [swStop, h, h1, hrb]

theorem swStop_success (s : Switchover) (h : s.status = stSuccess) :
    swStop s = { s with stopRequested := true } := by
  have h1 : ¬(stSuccess = stRunning) := by decide
  have h2 : ¬(stSuccess = stFailed) := by decide
  simp [swStop, h, h1, h2]

theorem swCycle_inv (aF : Nat) (s : Switchover) (now : Nat)
    (evals : Nat → Bool) (haF : s.allowedFailures = aF)
    (hR : s.status = stRunning) (hsr : s.stopRequested = false)
    (hcnt : 0 < aF → s.failureCounter ≤ aF + 1)
    (hff : 0 < aF → aF < s.failureCounter → s.status = stFailed) :
    SwInv aF (swCycle s now evals) := by
  have hFR : stFailed ≠ stRunning := by decide
  have hUR : stSuccess ≠ stRunning := by decide
  have hUF : stSuccess ≠ stFailed := by decide
  have hle : 0 < aF → s.failureCounter ≤ aF := by
    intro h1
    by_contra hgt
    push_neg at hgt
    exact (Ne.symm hFR) (hR.symm.trans (hff h1 hgt))
  simp only [swCycle]
  by_cases hfind :
      ((s.conds.mapIdx fun i c =>
        updateCond now (evals i) s.toActive c).find? condFailed).isSome = true
  · simp only [hfind, if_true]
    by_cases hguard :
        0 < s.allowedFailures ∧ s.allowedFailures < s.failureCounter + 1
    · rw [if_pos hguard, swStop_failed _ rfl]
      rw [haF] at hguard
      by_cases hrb : ({ s with
          conds := s.conds.mapIdx fun i c => updateCond now (evals i) s.toActive c,
          failureCounter := s.failureCounter + 1,
          status := stFailed } : Switchover).rollback = true
      · rw [if_pos hrb]
        exact ⟨haF, fun hh => absurd rfl hh,
          fun _ => Or.inr (Or.inl rfl),
          fun _ => ⟨hguard.1, hguard.2⟩,
          fun hh => absurd hh (Ne.symm hUF),
          fun h1 => show s.failureCounter + 1 ≤ aF + 1 by
            have := hle h1
            omega,
          fun _ _ => rfl⟩
      · rw [if_neg hrb]
        exact ⟨haF, fun hh => absurd rfl hh,
          fun _ => Or.inr (Or.inl rfl),
          fun _ => ⟨hguard.1, hguard.2⟩,
          fun hh => absurd hh (Ne.symm hUF),
          fun h1 => show s.failureCounter + 1 ≤ aF + 1 by
            have := hle h1
            omega,
          fun _ _ => rfl⟩
    · rw [if_neg hguard]
      rw [haF] at hguard
      refine ⟨haF, fun _ => hR, ?_, ?_, ?_, ?_, ?_⟩
      · intro hh
        rw [show ({ s with
          conds := s.conds.mapIdx fun i c => updateCond now (evals i) s.toActive c,
          failureCounter := s.failureCounter + 1 } : Switchover).stopRequested
            = s.stopRequested from rfl, hsr] at hh
        cases hh
      · intro hh
        exact absurd (hR.symm.trans hh) (Ne.symm hFR)
      · intro hh
        exact absurd (hR.symm.trans hh) (Ne.symm hUR)
      · intro h1
        show s.failureCounter + 1 ≤ aF + 1
        have := hle h1
        omega
      · intro h1 h2
        have h2b : aF < s.failureCounter + 1 := h2
        exact absurd ⟨h1, h2b⟩ hguard
  · simp only [hfind, if_false, Bool.false_eq_true]
    by_cases hsw :
        updateWeight s.fromW (sub8 s.fromW s.weightChange) = 0 ∨
        100 ≤ updateWeight s.toW (add8 s.toW s.weightChange)
    · rw [if_pos hsw, swStop_success _ rfl]
      refine ⟨haF, fun hh => absurd rfl hh,
        fun _ => Or.inr (Or.inr rfl),
        fun hh => absurd hh hUF,
        fun _ => hsw, hcnt, ?_⟩
      intro h1 h2
      have h2b : aF < s.failureCounter := h2
      exact absurd h2b (Nat.not_lt.mpr (hle h1))
    · rw [if_neg hsw]
      refine ⟨haF, fun _ => hR, ?_, ?_, ?_, hcnt, ?_⟩
      · intro hh
        rw [show ({ s with
          conds := (s.conds.mapIdx fun i c =>
            updateCond now (evals i) s.toActive c).map
              fun c => { c with triggerTime := none, status := false },
          fromW := updateWeight s.fromW (sub8 s.fromW s.weightChange),
          toW := updateWeight s.toW (add8 s.toW s.weightChange) } :
            Switchover).stopRequested = s.stopRequested from rfl, hsr] at hh
        cases hh
      · intro hh
        exact absurd (hR.symm.trans hh) (Ne.symm hFR)
      · intro hh
        exact absurd (hR.symm.trans hh) (Ne.symm hUR)
      · intro h1 h2
        have h2b : aF < s.failureCounter := h2
        exact absurd h2b (Nat.not_lt.mpr (hle h1))

theorem swStep_inv (aF : Nat) (s : Switchover) (e : SwEvent)
    (h : SwInv aF s) : SwInv aF (swStep s e) := by
  obtain ⟨haF, hrun, hstop, hfail, hsucc, hcnt, hff⟩ := h
  have hFR : stFailed ≠ stRunning := by decide
  have hSF : stStopped ≠ stFailed := by decide
  have hSS : stStopped ≠ stSuccess := by decide
  cases e with
  | readError => exact ⟨haF, hrun, hstop, hfail, hsucc, hcnt, hff⟩
  | stop =>
    by_cases hsr : s.stopRequested = true
    · simp only [swStep, hsr, if_true]
      exact ⟨haF, hrun, hstop, hfail, hsucc, hcnt, hff⟩
    · have hR := hrun hsr
      simp only [swStep, hsr, if_false, Bool.false_eq_true]
      rw [swStop_running s hR]
      refine ⟨haF, ?_, ?_, ?_, ?_, hcnt, ?_⟩
      · intro hh
        exact absurd rfl hh
      · intro _
        exact Or.inl rfl
      · intro hh
        exact absurd hh hSF
      · intro hh
        exact absurd hh hSS
      · intro h1 h2
        exact absurd (hR.symm.trans (hff h1 h2)) (Ne.symm hFR)
  | cycle now evals =>
    by_cases hsr : s.stopRequested = true
    · simp only [swStep, hsr, if_true]
      exact ⟨haF, hrun, hstop, hfail, hsucc, hcnt, hff⟩
    · have hR := hrun hsr
      simp only [swStep, hsr, if_false, Bool.false_eq_true]
      exact swCycle_inv aF s now evals haF hR (by simpa using hsr) hcnt hff

theorem swRun_inv (aF : Nat) (s : Switchover) (events : List SwEvent)
    (h : SwInv aF s) : SwInv aF (swRun s events) := by
  induction events generalizing s with
  | nil => exact h
  | cons e es ih => exact ih (swStep s e) (swStep_inv aF s e h)

theorem swStart_inv (fromW toW : Nat) (toActive : Bool)
    (activeFors : List Nat) (wc aF : Nat) (rb : Bool) (s0 : Switchover)
    (h0 : newSwitchover fromW toW toActive activeFors wc aF rb = some s0) :
    SwInv aF (swStart s0) := by
  have hRF : stRunning ≠ stFailed := by decide
  have hRS : stRunning ≠ stSuccess := by decide
  rw [newSwitchover] at h0
  by_cases hlt : fromW % 256 < toW % 256
  · rw [if_pos hlt] at h0
    cases h0
  · rw [if_neg hlt] at h0
    injection h0 with h0
    subst h0
    refine ⟨rfl, fun _ => rfl, ?_, ?_, ?_, ?_, ?_⟩
    · intro hh
      exact absurd (show false = true from hh) Bool.false_ne_true
    · intro hh
      exact absurd hh hRF
    · intro hh
      exact absurd hh hRS
    · intro _
      exact Nat.zero_le _
    · intro h1 h2
      exact absurd (show aF < 0 from h2) (Nat.not_lt_zero aF)

theorem swCycle_counter (s : Switchover) (now : Nat) (evals : Nat → Bool) :
    (swCycle s now evals).failureCounter =
      if ((s.conds.mapIdx fun i c =>
          updateCond now (evals i) s.toActive c).find? condFailed).isSome
      then s.failureCounter + 1 else s.failureCounter := by
  simp only [swCycle]
  by_cases hfind :
      ((s.conds.mapIdx fun i c =>
        updateCond now (evals i) s.toActive c).find? condFailed).isSome = true
  · simp only [hfind, if_true]
    by_cases hguard :
        0 < s.allowedFailures ∧ s.allowedFailures < s.failureCounter + 1
    · rw [if_pos hguard, swStop_failed _ rfl]
      by_cases hrb : ({ s with
          conds := s.conds.mapIdx fun i c => updateCond now (evals i) s.toActive c,
          failureCounter := s.failureCounter + 1,
          status := stFailed } : Switchover).rollback = true
      · rw [if_pos hrb]
      · rw [if_neg hrb]
    · rw [if_neg hguard]
  · simp only [hfind, if_false, Bool.false_eq_true]
    by_cases hsw :
        updateWeight s.fromW (sub8 s.fromW s.weightChange) = 0 ∨
        100 ≤ updateWeight s.toW (add8 s.toW s.weightChange)
    · rw [if_pos hsw, swStop_success _ rfl]
    · rw [if_neg hsw]

/-! ### C2 -/

/-- C2: the switchover weight update does not saturate. Starting a
switchover from weights (70, 30) with weightChange 30 and an empty (hence
trivially all-latched) condition set, three update cycles pass through
(40, 60) and (10, 90) and then compute from.weight = (10 - 30) mod 256 =
236 and to.weight = 120 by Go uint8 arithmetic: from.weight RISES from 10
to 236 instead of saturating at 0, and to.weight leaves [0, 100]. The
claim's saturation does not exist in the code; the [0,100] weight invariant
of the spec's data model is broken, which marks the uint8 wrap-around as
the slip. -/
theorem c2_weight_wraparound :
    ((newSwitchover 70 30 true [] 30 0 false).map fun s0 =>
      let s2 := swRun (swStart s0)
        [SwEvent.cycle 1 (fun _ => true), SwEvent.cycle 2 (fun _ => true)]
      let s3 := swStep s2 (SwEvent.cycle 3 (fun _ => true))
      (s2.fromW, s2.toW, s3.fromW, s3.toW, s3.status)) =
      some (10, 90, 236, 120, stSuccess) ∧ 10 < 236 := by
  exact ⟨by decide, by decide⟩

/-! ### C4 -/

theorem swCycle_status (s : Switchover) (now : Nat) (evals : Nat → Bool) :
    (swCycle s now evals).status = s.status ∨
    (swCycle s now evals).status = stFailed ∨
    (swCycle s now evals).status = stSuccess := by
  simp only [swCycle]
  by_cases hfind :
      ((s.conds.mapIdx fun i c =>
        updateCond now (evals i) s.toActive c).find? condFailed).isSome = true
  · simp only [hfind, if_true]
    by_cases hguard :
        0 < s.allowedFailures ∧ s.allowedFailures < s.failureCounter + 1
    · rw [if_pos hguard, swStop_failed _ rfl]
      by_cases hrb : ({ s with
          conds := s.conds.mapIdx fun i c => updateCond now (evals i) s.toActive c,
          failureCounter := s.failureCounter + 1,
          status := stFailed } : Switchover).rollback = true
      · rw [if_pos hrb]
        exact Or.inr (Or.inl rfl)
      · rw [if_neg hrb]
        exact Or.inr (Or.inl rfl)
    · rw [if_neg hguard]
      exact Or.inl rfl
  · simp only [hfind, if_false, Bool.false_eq_true]
    by_cases hsw :
        updateWeight s.fromW (sub8 s.fromW s.weightChange) = 0 ∨
        100 ≤ updateWeight s.toW (add8 s.toW s.weightChange)
    · rw [if_pos hsw, swStop_success _ rfl]
      exact Or.inr (Or.inr rfl)
    · rw [if_neg hsw]
      exact Or.inl rfl

theorem swRun_stopped_event (s : Switchover) (events : List SwEvent)
    (hne : s.status ≠ stStopped)
    (hfin : (swRun s events).status = stStopped) : SwEvent.stop ∈ events := by
  have hSF : stStopped ≠ stFailed := by decide
  have hSS : stStopped ≠ stSuccess := by decide
  induction events generalizing s with
  | nil => exact absurd hfin hne
  | cons e es ih =>
    cases e with
    | stop => exact List.mem_cons_self _ _
    | readError =>
      have hfin2 : (swRun s es).status = stStopped := hfin
      exact List.mem_cons_of_mem _ (ih s hne hfin2)
    | cycle now evals =>
      have hfin2 :
          (swRun (swStep s (SwEvent.cycle now evals)) es).status =
            stStopped := hfin
      by_cases hsr : s.stopRequested = true
      · rw [show swStep s (SwEvent.cycle now evals) = s by
          simp [swStep, hsr]] at hfin2
        exact List.mem_cons_of_mem _ (ih s hne hfin2)
      · rw [show swStep s (SwEvent.cycle now evals) = swCycle s now evals by
          simp [swStep, hsr]] at hfin2
        refine List.mem_cons_of_mem _ (ih (swCycle s now evals) ?_ hfin2)
        rcases swCycle_status s now evals with hh | hh | hh
        · rw [hh]
          exact hne
        · rw [hh]
          exact Ne.symm hSF
        · rw [hh]
          exact Ne.symm hSS

/-- C4 counterexample: a switchover from weights (100, 90) with
weightChange 20 and no conditions terminates after a single cycle in
Success with from.weight = 80 and to.weight = 110: Success is reached with
from.weight ≠ 0 AND to.weight ≠ 100 (the success test is
`to.Weigth >= 100`, which overshoots when weightChange does not divide the
gap), so the claim's characterisation of the Success terminal state is
false as stated. -/
theorem c4_counterexample :
    ((newSwitchover 100 90 true [] 20 3 false).map fun s0 =>
      let sf := swRun (swStart s0) [SwEvent.cycle 1 (fun _ => true)]
      (sf.stopRequested, sf.status, sf.fromW, sf.toW)) =
      some (true, stSuccess, 80, 110) ∧ (80 ≠ 0 ∧ 110 ≠ 100) := by
  exact ⟨by decide, by decide⟩

/-- C4 (amended): every switchover run that terminates (killChan
signalled) does so in exactly one of three terminal states — Success with
from.weight = 0 or to.weight ≥ 100 (to.weight may overshoot 100, and
from.weight may wrap, when weightChange does not divide the weights),
Failed with failureCounter > allowedFailures (and allowedFailures > 0), or
Stopped, which only an explicit external Stop produces; no other terminal
status is reachable from a started switchover. -/
theorem c4_terminal_states_amended (fromW toW : Nat) (toActive : Bool)
    (activeFors : List Nat) (wc aF : Nat) (rb : Bool) (s0 : Switchover)
    (events : List SwEvent)
    (h0 : newSwitchover fromW toW toActive activeFors wc aF rb = some s0)
    (hterm : (swRun (swStart s0) events).stopRequested = true) :
    ((swRun (swStart s0) events).status = stStopped ∨
      (swRun (swStart s0) events).status = stFailed ∨
      (swRun (swStart s0) events).status = stSuccess) ∧
    ((swRun (swStart s0) events).status = stFailed →
      0 < aF ∧ aF < (swRun (swStart s0) events).failureCounter) ∧
    ((swRun (swStart s0) events).status = stSuccess →
      (swRun (swStart s0) events).fromW = 0 ∨
      100 ≤ (swRun (swStart s0) events).toW) ∧
    ((swRun (swStart s0) events).status = stStopped →
      SwEvent.stop ∈ events) := by
  have hinv := swRun_inv aF (swStart s0) events
    (swStart_inv fromW toW toActive activeFors wc aF rb s0 h0)
  obtain ⟨_, _, hstop, hfail, hsucc, _, _⟩ := hinv
  refine ⟨hstop hterm, hfail, hsucc, ?_⟩
  intro hfin
  refine swRun_stopped_event (swStart s0) events ?_ hfin
  have hRS : stRunning ≠ stStopped := by decide
  rw [show (swStart s0).status = stRunning from rfl]
  exact hRS

/-- C4 witness: the amended theorem applied to a switchover from (100, 0)
with weightChange 50, allowedFailures 1 and no conditions, stopped by a
single external Stop. -/
theorem c4_terminal_states_amended_witness :
    (((swRun (swStart swC4w) [SwEvent.stop]).status = stStopped ∨
      (swRun (swStart swC4w) [SwEvent.stop]).status = stFailed ∨
      (swRun (swStart swC4w) [SwEvent.stop]).status = stSuccess) ∧
    ((swRun (swStart swC4w) [SwEvent.stop]).status = stFailed →
      0 < 1 ∧ 1 < (swRun (swStart swC4w) [SwEvent.stop]).failureCounter) ∧
    ((swRun (swStart swC4w) [SwEvent.stop]).status = stSuccess →
      (swRun (swStart swC4w) [SwEvent.stop]).fromW = 0 ∨
      100 ≤ (swRun (swStart swC4w) [SwEvent.stop]).toW) ∧
    ((swRun (swStart swC4w) [SwEvent.stop]).status = stStopped →
      SwEvent.stop ∈ [SwEvent.stop])) :=
  c4_terminal_states_amended 100 0 true [] 50 1 false swC4w [SwEvent.stop]
    (by decide) (by decide)

/-! ### C5 -/

/-- C5: with allowedFailures = 0 the controller never reaches status
Failed, no matter how many cycles miss their conditions; with
allowedFailures > 0 the status is Failed exactly when the failure counter
exceeds allowedFailures (and then it just exceeded it: the counter never
passes allowedFailures + 1); and in any single cycle the counter grows by
exactly one precisely when some condition is unlatched with a zero trigger
time after this cycle's evaluation, and is unchanged otherwise. -/
theorem c5_allowed_failures (fromW toW : Nat) (toActive : Bool)
    (activeFors : List Nat) (wc aF : Nat) (rb : Bool) (s0 : Switchover)
    (events : List SwEvent)
    (h0 : newSwitchover fromW toW toActive activeFors wc aF rb = some s0) :
    (aF = 0 → (swRun (swStart s0) events).status ≠ stFailed) ∧
    (0 < aF →
      ((swRun (swStart s0) events).status = stFailed ↔
        aF < (swRun (swStart s0) events).failureCounter)) ∧
    (0 < aF → (swRun (swStart s0) events).failureCounter ≤ aF + 1) ∧
    (∀ (s : Switchover) (now : Nat) (evals : Nat → Bool),
      ((swCycle s now evals).failureCounter = s.failureCounter + 1 ↔
        ∃ c ∈ s.conds.mapIdx fun i c => updateCond now (evals i) s.toActive c,
          condFailed c = true) ∧
      ((swCycle s now evals).failureCounter = s.failureCounter ∨
        (swCycle s now evals).failureCounter = s.failureCounter + 1)) := by
  have hinv := swRun_inv aF (swStart s0) events
    (swStart_inv fromW toW toActive activeFors wc aF rb s0 h0)
  obtain ⟨_, _, _, hfail, _, hcnt, hff⟩ := hinv
  refine ⟨?_, ?_, hcnt, ?_⟩
  · intro h0f hF
    have := (hfail hF).1
    omega
  · intro hpos
    exact ⟨fun hF => (hfail hF).2, fun hlt => hff hpos hlt⟩
  · intro s now evals
    rw [swCycle_counter]
    by_cases hfind :
        ((s.conds.mapIdx fun i c =>
          updateCond now (evals i) s.toActive c).find? condFailed).isSome = true
    · rw [if_pos hfind]
      refine ⟨⟨fun _ => ?_, fun _ => rfl⟩, Or.inr rfl⟩
      exact List.find?_isSome.mp hfind
    · rw [if_neg hfind]
      constructor
      · constructor
        · intro hh
          omega
        · intro hh
          exact absurd (List.find?_isSome.mpr hh) hfind
      · exact Or.inl rfl

/-- C5 witness: a switchover with one condition (activation 0),
allowedFailures 1 and two failing cycles ends Failed with counter 2. -/
theorem c5_allowed_failures_witness :
    (1 = 0 → (swRun (swStart swC5w) eventsC5).status ≠ stFailed) ∧
    (0 < 1 →
      ((swRun (swStart swC5w) eventsC5).status = stFailed ↔
        1 < (swRun (swStart swC5w) eventsC5).failureCounter)) ∧
    (0 < 1 → (swRun (swStart swC5w) eventsC5).failureCounter ≤ 1 + 1) ∧
    (∀ (s : Switchover) (now : Nat) (evals : Nat → Bool),
      ((swCycle s now evals).failureCounter = s.failureCounter + 1 ↔
        ∃ c ∈ s.conds.mapIdx fun i c => updateCond now (evals i) s.toActive c,
          condFailed c = true) ∧
      ((swCycle s now evals).failureCounter = s.failureCounter ∨
        (swCycle s now evals).failureCounter = s.failureCounter + 1)) :=
  c5_allowed_failures 100 0 true [0] 10 1 false swC5w eventsC5 (by decide)

/-! ### C3 -/

/-- C3 counterexample: with activation 10 and the single condition x > 0
evaluated true at 0, false at 1, true at 11 and false at 12, the monitor
promotes the alert to Alarming at 11 even though the truth was interrupted
at 1 (so it was not continuously true for more than 10 before the
promotion), and it emits Resolved at 12, one instant after the last true
evaluation at 11 (12 < 11 + 10), because the intervening true evaluation at
11 did not restart the falsity measurement latched at endTime = 1. Both
directions of the claim fail on this trace. -/
theorem c3_counterexample :
    condIsTrue condC3 ratesT = true ∧ condIsTrue condC3 ratesF = false ∧
    (runMonitor 7 [condC3] ticksC3 ⟨[], []⟩).sent.map (fun a => a.type) =
      [alertPending, alertAlarming, alertResolved] ∧
    (runMonitor 7 [condC3] ticksC3 ⟨[], []⟩).sent.map (fun a => a.sendTime) =
      [none, some 11, some 11] ∧
    (runMonitor 7 [condC3] ticksC3 ⟨[], []⟩).sent.map (fun a => a.endTime) =
      [none, some 1, some 1] ∧
    12 < 11 + condC3.activeFor := by
  refine ⟨by decide, by decide, by decide, by decide, by decide, by decide⟩

/-- C3 (amended): the monitor measures the activation duration from fixed
timestamps, not from continuous runs. Pending → Alarming fires at a true
evaluation strictly after `startTime + activeFor` where `startTime` is the
alert's creation time, never reset by intervening false evaluations; and
Alarming → Resolved fires at a false evaluation strictly after
`endTime + activeFor` where `endTime` is latched at the first false
evaluation after creation and never reset by intervening true
evaluations. -/
theorem c3_alert_transitions_amended (bid now : Nat)
    (rates : List (String × ℚ)) (st : MonState) (c : MonCond) :
    ((∃ a, (monitorCond bid now rates st c).sent = st.sent ++ [a] ∧
        a.type = alertAlarming) ↔
      (∃ a, st.activeAlerts.lookup c.metric = some a ∧
        condIsTrue c rates = true ∧ a.sendTime = none ∧
        a.startTime + c.activeFor < now)) ∧
    ((∃ a, (monitorCond bid now rates st c).sent = st.sent ++ [a] ∧
        a.type = alertResolved) ↔
      (∃ a e, st.activeAlerts.lookup c.metric = some a ∧
        condIsTrue c rates = false ∧ a.endTime = some e ∧
        e + c.activeFor < now)) ∧
    (∀ a e, st.activeAlerts.lookup c.metric = some a → a.endTime = some e →
      condIsTrue c rates = true →
      ∃ a2, (monitorCond bid now rates st c).activeAlerts.lookup c.metric =
        some a2 ∧ a2.endTime = some e) ∧
    (∀ a, st.activeAlerts.lookup c.metric = some a → a.endTime = none →
      condIsTrue c rates = false →
      ∃ a2, (monitorCond bid now rates st c).activeAlerts.lookup c.metric =
        some a2 ∧ a2.endTime = some now) ∧
    (st.activeAlerts.lookup c.metric = none → condIsTrue c rates = true →
      ∃ a2, (monitorCond bid now rates st c).activeAlerts.lookup c.metric =
        some a2 ∧ a2.startTime = now ∧ a2.type = alertPending) ∧
    (∀ a a2, st.activeAlerts.lookup c.metric = some a →
      (monitorCond bid now rates st c).activeAlerts.lookup c.metric =
        some a2 → a2.startTime = a.startTime) := by
  rcases hl : st.activeAlerts.lookup c.metric with _ | a
  · by_cases hr : condIsTrue c rates = true
    · simp [monitorCond, hl, hr, lookup_mapSet_self, alertPending,
        alertAlarming, alertResolved]
    · replace hr : condIsTrue c rates = false := by
        revert hr
        cases condIsTrue c rates <;> simp
      simp [monitorCond, hl, hr]
  · by_cases hr : condIsTrue c rates = true
    · by_cases hp : a.startTime + c.activeFor < now ∧ a.sendTime = none
      · simp [monitorCond, hl, hr, hp, lookup_mapSet_self, alertAlarming,
          alertResolved]
        rintro a1 e rfl h2
        exact h2
      · simp only [monitorCond, hl, hr, if_true]
        rw [if_neg (by simpa using hp)]
        simp [lookup_mapSet_self]
        refine ⟨fun h1 => ?_, ?_⟩
        · by_contra hlt
          exact hp ⟨by omega, h1⟩
        · rintro a1 e rfl h2
          exact h2
    · replace hr : condIsTrue c rates = false := by
        revert hr
        cases condIsTrue c rates <;> simp
      rcases he : a.endTime with _ | e
      · have hfire : ¬ (now + c.activeFor < now) := by omega
        simp [monitorCond, hl, hr, he, hfire, lookup_mapSet_self]
      · by_cases hfire : e + c.activeFor < now
        · simp [monitorCond, hl, hr, he, hfire, lookup_mapDel,
            alertAlarming, alertResolved]
        · simp [monitorCond, hl, hr, he, hfire, lookup_mapSet_self]

/-- C3 witness: the amended theorem applied at the Alarming alert with
latched endTime 1, activation 10 and a false evaluation at 12 — the
Resolved promotion fires. -/
theorem c3_alert_transitions_amended_witness :
    ∃ a, (monitorCond 7 12 ratesF ⟨[(mX, alertC3)], []⟩ condC3).sent =
      [] ++ [a] ∧ a.type = alertResolved :=
  (c3_alert_transitions_amended 7 12 ratesF ⟨[(mX, alertC3)], []⟩
    condC3).2.1.mpr ⟨alertC3, 1, by decide, by decide, by decide, by decide⟩

/-- C7 counterexample: with a scrape body holding only the metric `foo` and
the single requested name `bar`, the delivered map is exactly
`[(bar, -1)]`: the claim that the scrape yields no sample for `bar` is
false — a substitute value `-1` is recorded. -/
theorem c7_counterexample :
    occursAsMetric bodyC7 nameBar = false ∧
    scrapeJobMetrics parseNone [nameBar] bodyC7 = some [(nameBar, -1)] ∧
    (scrapeJobMetrics parseNone [nameBar] bodyC7).map
      (fun m => m.lookup nameBar) ≠ some none := by
  refine ⟨by decide, by decide, by decide⟩

/-! ### C6 helper lemmas -/

theorem ggt_dvd (l : List Nat) : ∀ x ∈ l, ggt l ∣ x := by
  induction l with
  | nil =>
    intro x hx
    cases hx
  | cons a t ih =>
    intro x hx
    rcases List.mem_cons.mp hx with h | h
    · subst h
      exact Nat.gcd_dvd_left x (ggt t)
    · exact dvd_trans (Nat.gcd_dvd_right a (ggt t)) (ih x h)

theorem ggt_replicate_zero (n : Nat) : ggt (List.replicate n 0) = 0 := by
  induction n with
  | zero => rfl
  | succ k ih => simpa [ggt, List.replicate_succ] using ih

theorem ggt_append_zeros (l : List Nat) (n : Nat) :
    ggt (l ++ List.replicate n 0) = ggt l := by
  simp only [ggt, List.foldr_append]
  rw [show (List.replicate n 0).foldr Nat.gcd 0 = 0 from ggt_replicate_zero n]

theorem ggt_eq_zero_iff (l : List Nat) : ggt l = 0 ↔ ∀ x ∈ l, x = 0 := by
  induction l with
  | nil => simp [ggt]
  | cons a t ih =>
    constructor
    · intro h x hx
      have h2 : Nat.gcd a (ggt t) = 0 := h
      have ha : a = 0 := Nat.eq_zero_of_gcd_eq_zero_left h2
      have ht : ggt t = 0 := Nat.eq_zero_of_gcd_eq_zero_right h2
      rcases List.mem_cons.mp hx with hxa | hxt
      · exact hxa ▸ ha
      · exact (ih.mp ht) x hxt
    · intro h
      have ha : a = 0 := h a (List.mem_cons_self _ _)
      have ht : ggt t = 0 := ih.mpr fun x hx => h x (List.mem_cons_of_mem _ hx)
      show Nat.gcd a (ggt t) = 0
      rw [ha, ht]
      rfl

theorem sum_map_div_mul (l : List Nat) (d : Nat)
    (h : ∀ x ∈ l, d ∣ x) : ((l.map fun w => w / d).sum) * d = l.sum := by
  induction l with
  | nil => simp
  | cons a t ih =>
    have hd : d ∣ a := h a (List.mem_cons_self _ _)
    have ht := ih fun x hx => h x (List.mem_cons_of_mem _ hx)
    simp only [List.map_cons, List.sum_cons, Nat.add_mul]
    rw [Nat.div_mul_cancel hd, ht]

theorem sum_map_div (l : List Nat) (d : Nat) (hd : 0 < d)
    (h : ∀ x ∈ l, d ∣ x) : (l.map fun w => w / d).sum = l.sum / d := by
  rw [← sum_map_div_mul l d h, Nat.mul_div_cancel _ hd]

theorem count_flatten_replicates (l : List RB) (f : RB → Nat)
    (hnd : (l.map fun b => b.id).Nodup) :
    ∀ b ∈ l,
      ((l.map fun b2 => List.replicate (f b2) b2.id).flatten).count b.id
        = f b := by
  induction l with
  | nil =>
    intro b hb
    cases hb
  | cons a t ih =>
    intro b hb
    simp only [List.map_cons, List.nodup_cons] at hnd
    obtain ⟨hna, hnt⟩ := hnd
    simp only [List.map_cons, List.flatten_cons, List.count_append]
    rcases List.mem_cons.mp hb with h | h
    · subst h
      have hz :
          ((t.map fun b2 =>
            List.replicate (f b2) b2.id).flatten).count b.id = 0 := by
        rw [List.count_eq_zero]
        intro hmem
        rcases List.mem_flatten.mp hmem with ⟨lsub, hlsub, hin⟩
        rcases List.mem_map.mp hlsub with ⟨b2, hb2, hback⟩
        rw [← hback] at hin
        have := List.eq_of_mem_replicate hin
        exact hna (this ▸ List.mem_map.mpr ⟨b2, hb2, rfl⟩)
      rw [List.count_replicate_self, hz]
      omega
    · have hne : b.id ≠ a.id := by
        intro hh
        exact hna (hh ▸ List.mem_map.mpr ⟨b, h, rfl⟩)
      have hz2 : (List.replicate (f a) a.id).count b.id = 0 :=
        List.count_eq_zero.mpr fun hmem => hne (List.eq_of_mem_replicate hmem)
      rw [hz2, ih hnt b h]
      omega

/-! ### C6 -/

/-- C6 counterexample: a route with a single ACTIVE backend of weight 0 has
gcd 0, so updateWeights produces the empty distribution vector even though
not every backend is inactive — the claimed "empty iff every backend is
inactive" equivalence is false. -/
theorem c6_counterexample :
    updateWeights [⟨1, 0, true⟩] = some [] ∧
    (⟨1, 0, true⟩ : RB).active = true := by
  exact ⟨by decide, rfl⟩

/-- C6 (amended): after a weight recomputation the distribution vector is
empty iff every ACTIVE backend has weight 0 (in particular when no backend
is active, so that g = 0); otherwise, writing g for the gcd of the active
weights, if the reduced weight sum `Σ weight_i / g` is at most 255 the
vector is the concatenation of `weight_b / g` consecutive copies of each
active backend b, its length is `(Σ weight_i) / g`, and each active backend
(under distinct ids) occurs exactly `weight_b / g` times; if the reduced
sum exceeds 255 the uint8 `sum` accumulator overflows and updateWeights
panics with an index out of range. -/
theorem c6_distribution_amended (bs : List RB) (g : Nat)
    (hg : g = ggt (activeWeights bs)) :
    (updateWeights bs = some [] ↔
      ∀ b ∈ bs, b.active = true → b.weigth = 0) ∧
    (0 < g →
      (((activeWeights bs).map fun w => w / g).sum < 256 →
        updateWeights bs = some (distrOf bs g) ∧
        (distrOf bs g).length = (activeWeights bs).sum / g) ∧
      (256 ≤ ((activeWeights bs).map fun w => w / g).sum →
        updateWeights bs = none)) ∧
    ((bs.map fun b => b.id).Nodup → 0 < g →
      ∀ b ∈ activesOf bs, ∀ d, updateWeights bs = some d →
        d.count b.id = b.weigth / g) := by
  have hgg : ggt (activeWeights bs ++
      List.replicate (bs.length - (activesOf bs).length) 0) = g := by
    rw [ggt_append_zeros, hg]
  have hdvd : ∀ x ∈ activeWeights bs, g ∣ x := by
    intro x hx
    rw [hg]
    exact ggt_dvd _ x hx
  have hsum :
      (((activeWeights bs ++
        List.replicate (bs.length - (activesOf bs).length) 0).map
          fun w => w / g).sum) =
      ((activeWeights bs).map fun w => w / g).sum := by
    simp [List.map_append, List.sum_append, List.map_replicate]
  have hlen : (distrOf bs g).length =
      ((activeWeights bs).map fun w => w / g).sum := by
    rw [distrOf, List.length_flatten, activeWeights]
    simp [Function.comp_def, List.map_map, List.length_replicate]
  have hall0 : (∀ b ∈ bs, b.active = true → b.weigth = 0) ↔
      (∀ x ∈ activeWeights bs, x = 0) := by
    constructor
    · intro h x hx
      rcases List.mem_map.mp hx with ⟨b, hb, hw⟩
      rcases List.mem_filter.mp hb with ⟨hbs, hact⟩
      exact hw ▸ h b hbs (by simpa using hact)
    · intro h b hb hact
      exact h b.weigth (List.mem_map.mpr ⟨b,
        List.mem_filter.mpr ⟨hb, by simpa using hact⟩, rfl⟩)
  refine ⟨?_, ?_, ?_⟩
  · constructor
    · intro hres
      rw [hall0, ← ggt_eq_zero_iff, ← hg]
      by_contra hgne
      have hgpos : 0 < g := Nat.pos_of_ne_zero hgne
      rw [updateWeights, hgg, if_pos hgpos] at hres
      have hpos : 0 < (distrOf bs g).length := by
        have hex : ∃ x ∈ activeWeights bs, x ≠ 0 := by
          by_contra hno
          push_neg at hno
          exact hgne (hg ▸ (ggt_eq_zero_iff _).mpr hno)
        rcases hex with ⟨x, hx, hxne⟩
        have hgx : g ∣ x := hdvd x hx
        have hterm : 1 ≤ x / g := by
          rcases hgx with ⟨k, hk⟩
          subst hk
          rcases Nat.eq_zero_or_pos k with hk0 | hkpos
          · exact absurd (by simp [hk0]) hxne
          · rw [Nat.mul_div_cancel_left _ hgpos]
            exact hkpos
        have hle2 : x / g ≤ ((activeWeights bs).map fun w => w / g).sum :=
          List.single_le_sum (fun y _ => Nat.zero_le y) _
            (List.mem_map.mpr ⟨x, hx, rfl⟩)
        rw [hlen]
        omega
      by_cases hfits : (distrOf bs g).length ≤
          (((activeWeights bs ++
            List.replicate (bs.length - (activesOf bs).length) 0).map
              fun w => w / g).sum) % 256
      · rw [if_pos hfits] at hres
        injection hres with hres
        rw [hres] at hpos
        simp at hpos
      · rw [if_neg hfits] at hres
        cases hres
    · intro h
      have hg0 : g = 0 := by
        rw [hg]
        exact (ggt_eq_zero_iff _).mpr (hall0.mp h)
      rw [updateWeights, hgg, hg0]
      simp
  · intro hgpos
    constructor
    · intro hlt
      have hfits : (distrOf bs g).length ≤
          (((activeWeights bs ++
            List.replicate (bs.length - (activesOf bs).length) 0).map
              fun w => w / g).sum) % 256 := by
        rw [hsum, hlen]
        omega
      constructor
      · rw [updateWeights, hgg, if_pos hgpos, if_pos hfits]
      · rw [hlen]
        exact sum_map_div _ g hgpos hdvd
    · intro hge
      have hnofit : ¬ ((distrOf bs g).length ≤
          (((activeWeights bs ++
            List.replicate (bs.length - (activesOf bs).length) 0).map
              fun w => w / g).sum) % 256) := by
        rw [hsum, hlen]
        omega
      rw [updateWeights, hgg, if_pos hgpos, if_neg hnofit]
  · intro hnd hgpos b hb d hd
    have hndact : ((activesOf bs).map fun b => b.id).Nodup := by
      refine List.Nodup.sublist ?_ hnd
      exact List.Sublist.map _ (List.filter_sublist bs)
    rw [updateWeights, hgg, if_pos hgpos] at hd
    by_cases hfits : (distrOf bs g).length ≤
        (((activeWeights bs ++
          List.replicate (bs.length - (activesOf bs).length) 0).map
            fun w => w / g).sum) % 256
    · rw [if_pos hfits] at hd
      injection hd with hd
      rw [← hd, distrOf]
      exact count_flatten_replicates (activesOf bs)
        (fun b2 => b2.weigth / g) hndact b hb
    · rw [if_neg hfits] at hd
      cases hd

/-! ### C8 -/

theorem lookup_filterNe_self {α : Type} (m : List (Nat × α)) (k : Nat) :
    (m.filter fun p => p.1 ≠ k).lookup k = none := by
  induction m with
  | nil => rfl
  | cons p rest ih =>
    by_cases hpk : p.1 = k
    · simpa [List.filter_cons, hpk] using ih
    · have hb : (k == p.1) = false := by
        simp only [beq_eq_false_iff_ne, ne_eq]
        exact fun hh => hpk hh.symm
      simpa [List.filter_cons, hpk, List.lookup, hb] using ih

theorem lookup_filterNe_other {α : Type} (m : List (Nat × α)) (k k2 : Nat)
    (h : k2 ≠ k) :
    (m.filter fun p => p.1 ≠ k).lookup k2 = m.lookup k2 := by
  induction m with
  | nil => rfl
  | cons p rest ih =>
    by_cases hpk : p.1 = k
    · have hb : (k2 == p.1) = false := by
        simp only [beq_eq_false_iff_ne, ne_eq]
        exact fun hh => h (hh.trans hpk)
      have hkk : (k2 == k) = false := by simpa using h
      simpa [List.filter_cons, hpk, List.lookup, hb, hkk] using ih
    · by_cases hk2 : k2 = p.1
      · have hb2 : (k2 == p.1) = true := by simpa using hk2
        simp [List.filter_cons, hpk, List.lookup, hb2]
      · have hb : (k2 == p.1) = false := by simpa using hk2
        simpa [List.filter_cons, hpk, List.lookup, hb] using ih

/-- C8: RemoveBackend with a backendID absent from the backend map returns
an error and leaves the repository unchanged; with a present backendID it
signals that backend's monitor stop channel, deletes exactly its entry and
returns no error. -/
theorem c8_remove_backend (r : RepoState) (backendID : Nat) :
    (r.backends.lookup backendID = none →
      removeBackend r backendID = (r, true)) ∧
    ((r.backends.lookup backendID).isSome = true →
      (removeBackend r backendID).2 = false ∧
      (removeBackend r backendID).1.backends.lookup backendID = none ∧
      (removeBackend r backendID).1.stopSignals =
        r.stopSignals ++ [backendID] ∧
      (removeBackend r backendID).1.writes = r.writes ∧
      ∀ k, k ≠ backendID →
        (removeBackend r backendID).1.backends.lookup k =
          r.backends.lookup k) := by
  constructor
  · intro h
    simp [removeBackend, h]
  · intro h
    simp only [removeBackend]
    rw [if_pos h]
    exact ⟨rfl, lookup_filterNe_self _ _, rfl, rfl,
      fun k hk => lookup_filterNe_other _ _ _ hk⟩

/-- C8 witness: the removal branch of the theorem at a repository holding
exactly backend 5. -/
theorem c8_remove_backend_witness :
    (removeBackend repoC8 5).2 = false ∧
    (removeBackend repoC8 5).1.backends.lookup 5 = none ∧
    (removeBackend repoC8 5).1.stopSignals =
      repoC8.stopSignals ++ [5] ∧
    (removeBackend repoC8 5).1.writes = repoC8.writes ∧
    ∀ k, k ≠ 5 →
      (removeBackend repoC8 5).1.backends.lookup k =
        repoC8.backends.lookup k :=
  (c8_remove_backend repoC8 5).2 (by decide)

/-! ### C10 -/

/-- C10: a ScrapeMetrics record for a backendID not in the repository's
backend map makes Listen dereference the missing entry and panic (the
scrape branch has no existence check), while a request-metrics record for
an unregistered backendID is dropped: the state is unchanged and no store
write happens. -/
theorem c10_listen_unknown_backend (r : RepoState) (backendID : Nat)
    (mp : List (String × ℚ)) (route : String) (urt cl status : Int)
    (h : r.backends.lookup backendID = none) :
    listenStep r (ListenEvent.scrape backendID mp) = none ∧
    listenStep r (ListenEvent.metrics route backendID urt cl status) =
      some r := by
  constructor <;> simp [listenStep, h]

/-- C10 witness: the theorem at an empty repository and backend id 9. -/
theorem c10_listen_unknown_backend_witness :
    listenStep repoC10 (ListenEvent.scrape 9 []) = none ∧
    listenStep repoC10 (ListenEvent.metrics routeC 9 0 0 200) =
      some repoC10 :=
  c10_listen_unknown_backend repoC10 9 [] routeC 0 0 200 (by decide)

/-! ### C9 -/

/-- C9: AddHandler rejects an empty method, a prefix that is empty or does
not start with a slash, and an already-registered (method, prefix) pair —
each time returning an error and leaving the trees unchanged; and after
AddHandler(GET, /a/) succeeds, a second identical AddHandler fails without
changing the router, a GET request for /a/x dispatches to the registered
handler via the longest-prefix match, and a POST request for /a/x is
answered by the 404 not-found handler. -/
theorem c9_add_handler :
    (∀ (trees : RTrees) (pfx : String) (h : Nat),
      addHandler trees emptyStr pfx h = (trees, true)) ∧
    (∀ (trees : RTrees) (method pfx : String) (h : Nat),
      (match pfx.data with
       | [] => True
       | c :: _ => c ≠ chSlash) →
      addHandler trees method pfx h = (trees, true)) ∧
    (∀ (trees : RTrees) (method pfx : String) (h : Nat) (t : RTree),
      trees.lookup (toUpperStr method) = some t →
      (t.lookup pfx).isSome = true →
      addHandler trees method pfx h = (trees, true)) ∧
    (addHandler [] mGET pfxA 1).2 = false ∧
    addHandler (addHandler [] mGET pfxA 1).1 mGET pfxA 2 =
      ((addHandler [] mGET pfxA 1).1, true) ∧
    serveHTTP (addHandler [] mGET pfxA 1).1 mGET pathAx =
      DispatchResult.handled 1 ∧
    serveHTTP (addHandler [] mGET pfxA 1).1 mPOST pathAx =
      DispatchResult.notFound := by
  have hup : toUpperStr emptyStr = emptyStr := rfl
  refine ⟨?_, ?_, ?_, by decide, by decide, by decide, by decide⟩
  · intro trees pfx h
    have hvm : validMP (toUpperStr emptyStr) pfx = false := by
      rw [hup]
      simp [validMP]
    simp [addHandler, checkIfHandleExists, hvm]
  · intro trees method pfx h hpfx
    have hvm : validMP (toUpperStr method) pfx = false := by
      unfold validMP
      rcases hd : pfx.data with _ | ⟨c, rest⟩
      · simp
      · rw [hd] at hpfx
        simp only [Bool.and_eq_false_iff]
        right
        simpa using hpfx
    simp [addHandler, checkIfHandleExists, hvm]
  · intro trees method pfx h t hlook hdup
    by_cases hvm : validMP (toUpperStr method) pfx = false
    · simp [addHandler, checkIfHandleExists, hvm]
    · have hvm2 : validMP (toUpperStr method) pfx = true := by
        revert hvm
        cases validMP (toUpperStr method) pfx <;> simp
      simp [addHandler, checkIfHandleExists, hvm2, hlook, hdup]

/-- C9 witness: the duplicate-rejection part of the theorem applied to a
router already holding (GET, /a/). -/
theorem c9_add_handler_witness :
    addHandler [(mGET, [(pfxA, 1)])] mGET pfxA 2 =
      ([(mGET, [(pfxA, 1)])], true) :=
  c9_add_handler.2.2.1 [(mGET, [(pfxA, 1)])] mGET pfxA 2 [(pfxA, 1)]
    (by decide) (by decide)

/-- C6 witness: the amended theorem applied to two active backends with
weights 40 and 20 (gcd 20) and an inactive one; the vector is [1, 1, 2] of
length 3 = 60 / 20 and backend 1 occurs twice. -/
theorem c6_distribution_amended_witness :
    ((updateWeights bsC6 = some [] ↔
      ∀ b ∈ bsC6, b.active = true → b.weigth = 0) ∧
    (0 < 20 →
      (((activeWeights bsC6).map fun w => w / 20).sum < 256 →
        updateWeights bsC6 = some (distrOf bsC6 20) ∧
        (distrOf bsC6 20).length = (activeWeights bsC6).sum / 20) ∧
      (256 ≤ ((activeWeights bsC6).map fun w => w / 20).sum →
        updateWeights bsC6 = none)) ∧
    ((bsC6.map fun b => b.id).Nodup → 0 < 20 →
      ∀ b ∈ activesOf bsC6, ∀ d, updateWeights bsC6 = some d →
        d.count b.id = b.weigth / 20)) :=
  c6_distribution_amended bsC6 20 (by decide)

end Depoy
